import Mathlib

/-!
The expectation-matching connection of go-sqlmock.

A shallow embedding of `connection.go`: the mock connection holds an ordered list of
expectations; `Begin`, `Exec` and `Query` look up the next unfulfilled expectation,
check the call against it and answer with the canned outcome; `Close` audits the list
and resets the connection.

Receiver-pointer methods are state-passing functions: each takes the connection state
and returns its Go results together with the connection state afterwards.  A pointer to
an expectation of the list is its index in the list.
-/

namespace sqlmock

/-! ## Values that cross the driver boundary -/

/-- A bound argument, `driver.Value` of `database/sql/driver`, restricted to the
variants with exact arithmetic. -/
inductive Value
  | null
  | int (n : Int)
  | bool (b : Bool)
  | str (s : String)
  deriving DecidableEq, Repr

/-- A canned `driver.Result`: the summary an Exec expectation answers with. -/
structure Result where
  lastInsertId : Int
  rowsAffected : Int
  deriving DecidableEq, Repr

/-- A canned `driver.Rows`: the row-set a Query expectation answers with. -/
structure Rows where
  columns : List String
  data : List (List Value)
  deriving DecidableEq, Repr

/-- Go `error` values.  `canned` is an error value the test author attached to an
expectation.  The other constructors are the results of the `fmt.Errorf` calls of
`connection.go`, holding the formatted message and grouped by the place that builds
them: no expectation left (`sequence`), next expectation of another type
(`typeMismatch`), payload not set (`configuration`), regex not matched
(`patternMismatch`), arguments not matched (`argsMismatch`), and the audit of `Close`
(`remaining`). -/
inductive Error
  | canned (msg : String)
  | sequence (msg : String)
  | typeMismatch (msg : String)
  | configuration (msg : String)
  | patternMismatch (msg : String)
  | argsMismatch (msg : String)
  | remaining (msg : String)
  deriving DecidableEq, Repr

/-- The text of an error, Go's `Error()` method. -/
def Error.text : Error → String
  | .canned m => m
  | .sequence m => m
  | .typeMismatch m => m
  | .configuration m => m
  | .patternMismatch m => m
  | .argsMismatch m => m
  | .remaining m => m

/-! ## Expectations -/

/-- Modelled from the spec: the declaration of `expectedBegin` is not in
`connection.go`.  The fields are the ones `Begin` reads and writes (`triggered`,
`err`); a Begin expectation carries only an optional error. -/
structure expectedBegin where
  triggered : Bool
  err : Option Error
  deriving DecidableEq, Repr

/-- Modelled from the spec: the declaration of `expectedExec` is not in
`connection.go`.  The fields are the ones `Exec` and `Close` read and write:
`triggered`, `err`, `sqlRegex` (held as the text `sqlRegex.String()` returns), `args`
(absent or an ordered list of expected values) and the canned `result`. -/
structure expectedExec where
  triggered : Bool
  err : Option Error
  sqlRegex : String
  args : Option (List Value)
  result : Option Result
  deriving DecidableEq, Repr

/-- Modelled from the spec: the declaration of `expectedQuery` is not in
`connection.go`.  As `expectedExec`, with the canned `rows` in place of `result`. -/
structure expectedQuery where
  triggered : Bool
  err : Option Error
  sqlRegex : String
  args : Option (List Value)
  rows : Option Rows
  deriving DecidableEq, Repr

/-- Modelled from the spec: the `expectation` interface is declared outside
`connection.go`; its values are the three variants the type switches of
`connection.go` distinguish. -/
inductive expectation
  | begin (e : expectedBegin)
  | exec (e : expectedExec)
  | query (e : expectedQuery)
  deriving DecidableEq, Repr

/-- The `triggered` field of an expectation, whatever its variant. -/
def expectation.triggered : expectation → Bool
  | .begin e => e.triggered
  | .exec e => e.triggered
  | .query e => e.triggered

/-- The canned error of an expectation, whatever its variant. -/
def expectation.err : expectation → Option Error
  | .begin e => e.err
  | .exec e => e.err
  | .query e => e.err

/-- Modelled from the spec: the method `fulfilled()` of the `expectation` interface is
declared outside `connection.go`.  The spec has `next` and `Close` read a flag
`fulfilled`, true once a matching call has been successfully processed, next to a flag
`triggered`, true once the expectation was selected; `connection.go` writes `triggered`
and no other flag, and the model reads that one flag.  Model and spec agree on an
expectation that was never selected and on one whose call passed every check; they
differ on an expectation whose call was rejected after it was selected, where the spec
has `fulfilled` stay false. -/
def expectation.fulfilled (e : expectation) : Bool :=
  e.triggered

/-- The name `%T` prints for an expectation: a pointer to its struct type in package
`sqlmock`. -/
def expectation.typeName : expectation → String
  | .begin _ => "*sqlmock.expectedBegin"
  | .exec _ => "*sqlmock.expectedExec"
  | .query _ => "*sqlmock.expectedQuery"

/-- The functions `connection.go` calls and does not define.  `stripQuery` is the query
normalisation helper, `queryMatches` the test of a normalised query against the regex
of an expectation, `argsMatches` the test of the bound arguments against the expected
arguments of an expectation, `fmtValues` and `fmtExpectation` what the verb `%+v` of
package `fmt` prints for an argument list and for an expectation. -/
structure Collaborators where
  stripQuery : String → String
  queryMatches : String → String → Bool
  argsMatches : Option (List Value) → List Value → Bool
  fmtValues : List Value → String
  fmtExpectation : expectation → String

/-! ## The connection -/

/-- The struct `conn`: the expectations in declaration order and the pointer `active`
to one of them (`none` is nil). -/
structure conn where
  expectations : List expectation
  active : Option Nat
  deriving DecidableEq, Repr

/-- The struct `transaction`: a handle whose only field points back to the connection. -/
structure transaction where
  deriving DecidableEq, Repr

/-- The loop of `next`: `i` is the index of the head of the list still to scan. -/
def nextFrom : List expectation → Nat → Option (Nat × expectation)
  | [], _ => none
  | e :: es, i => if !e.fulfilled then some (i, e) else nextFrom es (i + 1)

/-- The method `next`: the next unfulfilled expectation, as its index and the
expectation found there, or `none` (nil) when all expectations were fulfilled. -/
def next (c : conn) : Option (Nat × expectation) × conn :=
  (nextFrom c.expectations 0, c)

/-- The method `Begin`. -/
def Begin (K : Collaborators) (c : conn) : (Option transaction × Option Error) × conn :=
  let r := next c
  let c := r.2
  match r.1 with
  | none =>
    ((none, some (.sequence
      "all expectations were already fulfilled, call to begin transaction was not expected")), c)
  | some (i, .begin etb) =>
    let etb := { etb with triggered := true }
    let c := { c with expectations := c.expectations.set i (.begin etb) }
    ((some {}, etb.err), c)
  | some (_, e) =>
    ((none, some (.typeMismatch
      ("call to begin transaction, was not expected, next expectation is " ++ e.typeName
        ++ " as " ++ K.fmtExpectation e))), c)

/-- The method `Exec`. -/
def Exec (K : Collaborators) (c : conn) (query : String) (args : List Value) :
    (Option Result × Option Error) × conn :=
  let r := next c
  let c := r.2
  let query := K.stripQuery query
  match r.1 with
  | none =>
    ((none, some (.sequence
      ("all expectations were already fulfilled, call to exec \x27" ++ query
        ++ "\x27 query with args " ++ K.fmtValues args ++ " was not expected"))), c)
  | some (i, .exec eq) =>
    let eq := { eq with triggered := true }
    let c := { c with expectations := c.expectations.set i (.exec eq) }
    if eq.err.isSome then
      ((none, eq.err), c)
    else if eq.result.isNone then
      ((none, some (.configuration
        ("exec query \x27" ++ query ++ "\x27 with args " ++ K.fmtValues args
          ++ ", must return a database/sql/driver.result, but it was not set for expectation "
          ++ (expectation.exec eq).typeName ++ " as " ++ K.fmtExpectation (.exec eq)))), c)
    else if !K.queryMatches eq.sqlRegex query then
      ((none, some (.patternMismatch
        ("exec query \x27" ++ query ++ "\x27, does not match regex \x27" ++ eq.sqlRegex
          ++ "\x27"))), c)
    else if !K.argsMatches eq.args args then
      ((none, some (.argsMismatch
        ("exec query \x27" ++ query ++ "\x27, args " ++ K.fmtValues args
          ++ " does not match expected " ++ K.fmtValues (eq.args.getD [])))), c)
    else
      ((eq.result, none), c)
  | some (_, e) =>
    ((none, some (.typeMismatch
      ("call to exec query \x27" ++ query ++ "\x27 with args " ++ K.fmtValues args
        ++ ", was not expected, next expectation is " ++ e.typeName ++ " as "
        ++ K.fmtExpectation e))), c)

/-- The method `Query`. -/
def Query (K : Collaborators) (c : conn) (query : String) (args : List Value) :
    (Option Rows × Option Error) × conn :=
  let r := next c
  let c := r.2
  let query := K.stripQuery query
  match r.1 with
  | none =>
    ((none, some (.sequence
      ("all expectations were already fulfilled, call to query \x27" ++ query
        ++ "\x27 with args " ++ K.fmtValues args ++ " was not expected"))), c)
  | some (i, .query eq) =>
    let eq := { eq with triggered := true }
    let c := { c with expectations := c.expectations.set i (.query eq) }
    if eq.err.isSome then
      ((none, eq.err), c)
    else if eq.rows.isNone then
      ((none, some (.configuration
        ("query \x27" ++ query ++ "\x27 with args " ++ K.fmtValues args
          ++ ", must return a database/sql/driver.rows, but it was not set for expectation "
          ++ (expectation.query eq).typeName ++ " as " ++ K.fmtExpectation (.query eq)))), c)
    else if !K.queryMatches eq.sqlRegex query then
      ((none, some (.patternMismatch
        ("query \x27" ++ query ++ "\x27, does not match regex [" ++ eq.sqlRegex ++ "]"))), c)
    else if !K.argsMatches eq.args args then
      ((none, some (.argsMismatch
        ("query \x27" ++ query ++ "\x27, args " ++ K.fmtValues args
          ++ " does not match expected " ++ K.fmtValues (eq.args.getD [])))), c)
    else
      ((eq.rows, none), c)
  | some (_, e) =>
    ((none, some (.typeMismatch
      ("call to query \x27" ++ query ++ "\x27 with args " ++ K.fmtValues args
        ++ ", was not expected, next expectation is " ++ e.typeName ++ " as "
        ++ K.fmtExpectation e))), c)

/-- The confirmation message `Close` appends for a fulfilled expectation: `msg` keeps
its zero value, the empty string, for a variant without a case in the type switch. -/
def confirmation : expectation → String
  | .exec ev => "execed \"" ++ ev.sqlRegex ++ "\""
  | .query ev => "queried \"" ++ ev.sqlRegex ++ "\""
  | .begin _ => ""

/-- The error `Close` builds for the unfulfilled expectation `e`, `errs` being the
joined confirmation messages collected before it. -/
def remainingError (errs : String) : expectation → Error
  | .exec ev =>
    .remaining (errs ++ "\nthere is a remaining expectation "
      ++ (expectation.exec ev).typeName ++ ", \"" ++ ev.sqlRegex
      ++ "\" which was not matched yet")
  | .query ev =>
    .remaining (errs ++ "\nthere is a remaining expectation "
      ++ (expectation.query ev).typeName ++ ", \"" ++ ev.sqlRegex
      ++ "\" which was not matched yet")
  | e =>
    .remaining (errs ++ "\nthere is a remaining expectation " ++ e.typeName
      ++ " which was not matched yet")

/-- The loop of `Close` over the expectations still to visit, `msgs` being the messages
collected so far; the loop is left at the first unfulfilled expectation. -/
def closeLoop : List expectation → List String → Option Error
  | [], _ => none
  | e :: es, msgs =>
    if e.fulfilled then closeLoop es (msgs ++ [confirmation e])
    else some (remainingError (String.intercalate "\n" msgs) e)

/-- The method `Close`, documented in the source as the call that ensures that all
expectations were met successfully and returns an error if there is any.  It works on
the package-level connection `mock.conn`, which is the connection the driver hands out:
`c` is the state of that connection. -/
def Close (c : conn) : Option Error × conn :=
  (closeLoop c.expectations [], { expectations := [], active := none })

/-- The struct `statement`: a handle holding a pointer back to the connection and the
normalised query it was prepared for. -/
structure statement where
  query : String
  deriving DecidableEq, Repr

/-- The method `Prepare`. -/
def Prepare (K : Collaborators) (c : conn) (query : String) :
    (Option statement × Option Error) × conn :=
  ((some ⟨K.stripQuery query⟩, none), c)

/-! ## Sequences of driver calls -/

/-- A driver call made on the connection. -/
inductive Call
  | begin
  | exec (query : String) (args : List Value)
  | query (query : String) (args : List Value)
  deriving DecidableEq, Repr

/-- What a driver call returned: the payload of its kind and the error. -/
inductive Reply
  | tx (t : Option transaction) (err : Option Error)
  | result (r : Option Result) (err : Option Error)
  | rows (r : Option Rows) (err : Option Error)
  deriving DecidableEq, Repr

/-- One driver call made on the connection `c`. -/
def call (K : Collaborators) (c : conn) : Call → Reply × conn
  | .begin => (.tx (Begin K c).1.1 (Begin K c).1.2, (Begin K c).2)
  | .exec q a => (.result (Exec K c q a).1.1 (Exec K c q a).1.2, (Exec K c q a).2)
  | .query q a => (.rows (Query K c q a).1.1 (Query K c q a).1.2, (Query K c q a).2)

/-- Driver calls made one after another, each on the state the previous one left. -/
def calls (K : Collaborators) (c : conn) : List Call → List Reply × conn
  | [] => ([], c)
  | k :: ks => ((call K c k).1 :: (calls K (call K c k).2 ks).1, (calls K (call K c k).2 ks).2)

/-- The call `k` matches the expectation `e`: same kind, no canned error, the payload
set, the normalised query satisfying the regex and the arguments satisfying
`argsMatches`. -/
def answers (K : Collaborators) : expectation → Call → Bool
  | .begin e, .begin => e.err.isNone
  | .exec e, .exec q a =>
    e.err.isNone && e.result.isSome && K.queryMatches e.sqlRegex (K.stripQuery q)
      && K.argsMatches e.args a
  | .query e, .query q a =>
    e.err.isNone && e.rows.isSome && K.queryMatches e.sqlRegex (K.stripQuery q)
      && K.argsMatches e.args a
  | _, _ => false

/-- The successful reply that hands out the canned payload of an expectation. -/
def cannedReply : expectation → Reply
  | .begin _ => .tx (some {}) none
  | .exec e => .result e.result none
  | .query e => .rows e.rows none

/-- The expectation with its `triggered` field set, all other fields kept. -/
def expectation.trigger : expectation → expectation
  | .begin e => .begin { e with triggered := true }
  | .exec e => .exec { e with triggered := true }
  | .query e => .query { e with triggered := true }

/-- The kind of an expectation and of a call. -/
inductive Kind
  | begin
  | exec
  | query
  deriving DecidableEq, Repr

/-- The variant of an expectation. -/
def expectation.kind : expectation → Kind
  | .begin _ => .begin
  | .exec _ => .exec
  | .query _ => .query

/-- The method a call invokes. -/
def Call.kind : Call → Kind
  | .begin => .begin
  | .exec _ _ => .exec
  | .query _ _ => .query

/-- The error a call returned. -/
def Reply.err : Reply → Option Error
  | .tx _ err => err
  | .result _ err => err
  | .rows _ err => err

/-- Whether the payload a call returned is nil. -/
def Reply.payloadIsNil : Reply → Bool
  | .tx t _ => t.isNone
  | .result r _ => r.isNone
  | .rows r _ => r.isNone

/-- An operation on the connection other than `Close`: a driver call or `Prepare`. -/
inductive Operation
  | call (k : Call)
  | prepare (query : String)
  deriving DecidableEq, Repr

/-- The connection state after one operation on the connection `c`. -/
def perform (K : Collaborators) (c : conn) : Operation → conn
  | .call k => (call K c k).2
  | .prepare query => (Prepare K c query).2

/-- The connection state after operations made one after another. -/
def performAll (K : Collaborators) (c : conn) : List Operation → conn
  | [] => c
  | o :: os => performAll K (perform K c o) os

/-- The index of the expectation `next` returns, `none` when it returns nil. -/
def nextIndex (c : conn) : Option Nat :=
  (next c).1.map Prod.fst

/-- The outcome classes of a call, after the error it returned. -/
inductive Outcome
  | success
  | sequence
  | typeMismatch
  | canned
  | configuration
  | patternMismatch
  | argsMismatch
  | remaining
  deriving DecidableEq, Repr

/-- The outcome class of a returned error: success for nil, else the place the error
comes from. -/
def outcome : Option Error → Outcome
  | none => .success
  | some (.canned _) => .canned
  | some (.sequence _) => .sequence
  | some (.typeMismatch _) => .typeMismatch
  | some (.configuration _) => .configuration
  | some (.patternMismatch _) => .patternMismatch
  | some (.argsMismatch _) => .argsMismatch
  | some (.remaining _) => .remaining

/-- The map that swaps Exec expectations with Query expectations: the canned result
becomes canned rows through `toRows`, canned rows become a canned result through
`toResult`, all other fields are kept; a Begin expectation is kept. -/
def swapKinds (toRows : Result → Rows) (toResult : Rows → Result) : expectation → expectation
  | .begin e => .begin e
  | .exec e => .query ⟨e.triggered, e.err, e.sqlRegex, e.args, e.result.map toRows⟩
  | .query e => .exec ⟨e.triggered, e.err, e.sqlRegex, e.args, e.rows.map toResult⟩

/-- The connection with every expectation swapped by `swapKinds`. -/
def swapConn (toRows : Result → Rows) (toResult : Rows → Result) (c : conn) : conn :=
  ⟨c.expectations.map (swapKinds toRows toResult), c.active⟩

/-- The expectation as it was declared: the `triggered` field cleared, all other fields
kept. -/
def expectation.declared : expectation → expectation
  | .begin e => .begin { e with triggered := false }
  | .exec e => .exec { e with triggered := false }
  | .query e => .query { e with triggered := false }

/-! ## A concrete set of collaborators, to evaluate the connection on examples -/

/-- White space, as the query normalisation sees it. -/
def isSpace (ch : Char) : Bool :=
  ch = Char.ofNat 32 || ch = Char.ofNat 9 || ch = Char.ofNat 10 || ch = Char.ofNat 13

/-- The loop of the normalisation: `started` tells that a character was kept already,
`pending` that a run of white space was met since. -/
def collapseFrom : List Char → Bool → Bool → List Char
  | [], _, _ => []
  | ch :: cs, started, pending =>
    if isSpace ch then collapseFrom cs started started
    else if pending then Char.ofNat 32 :: ch :: collapseFrom cs true false
    else ch :: collapseFrom cs true false

/-- Modelled from the spec: the helper `stripQuery` is not in `connection.go`.  It
trims the ends of the query and collapses every run of white space to one space. -/
def stripQuery (query : String) : String :=
  String.mk (collapseFrom query.data false false)

/-- Whether the characters `p` occur in `s` as a contiguous run. -/
def occursIn (p : List Char) : List Char → Bool
  | [] => p.isEmpty
  | ch :: cs => p.isPrefixOf (ch :: cs) || occursIn p cs

/-- The match of a regex without metacharacters: the text occurs in the query. -/
def literalMatches (sqlRegex query : String) : Bool :=
  occursIn sqlRegex.data query.data

/-- Modelled from the spec: the method `argsMatches` is not in `connection.go`.  Absent
expected arguments are not checked, declared ones are compared value by value. -/
def argsMatches (expected : Option (List Value)) (args : List Value) : Bool :=
  match expected with
  | none => true
  | some vs => decide (vs = args)

/-- An abbreviated rendering of one value. -/
def fmtValue : Value → String
  | .null => "<nil>"
  | .int n => toString n
  | .bool b => toString b
  | .str s => s

/-- The collaborators used in the examples: literal regexes, value-by-value argument
comparison, and abbreviated renderings for `%+v`. -/
def literal : Collaborators where
  stripQuery := stripQuery
  queryMatches := literalMatches
  argsMatches := argsMatches
  fmtValues := fun vs => "[" ++ String.intercalate " " (vs.map fmtValue) ++ "]"
  fmtExpectation := fun e => "&" ++ e.typeName

/-! ## Example connections -/

/-- An Exec expectation as declared: pattern, two expected arguments, a canned result
with last-insert-id 1. -/
def insertUsers : expectedExec where
  triggered := false
  err := none
  sqlRegex := "INSERT INTO users"
  args := some [.int 1, .str "a"]
  result := some ⟨1, 1⟩

/-- A Query expectation as declared: pattern, no expected arguments, canned rows. -/
def selectAny : expectedQuery where
  triggered := false
  err := none
  sqlRegex := "SELECT"
  args := none
  rows := some ⟨["id"], [[.int 1]]⟩

/-- A Begin expectation as declared, without a canned error. -/
def beginPlain : expectedBegin where
  triggered := false
  err := none

/-- A connection with no expectation. -/
def noExpectations : conn := ⟨[], none⟩

/-- A connection declared with an Exec expectation followed by a Query expectation. -/
def execThenQuery : conn := ⟨[.exec insertUsers, .query selectAny], some 1⟩

/-- A connection declared with one Query expectation. -/
def oneQuery : conn := ⟨[.query selectAny], some 0⟩

/-- A connection declared with a Begin, an Exec and a Query expectation. -/
def beginExecQuery : conn :=
  ⟨[.begin beginPlain, .exec insertUsers, .query selectAny], some 2⟩

/-- A canned error, as a test author attaches it to an expectation. -/
def lostConnection : Error := .canned "connection lost"

/-- A connection whose only expectation is an Exec expectation with a canned error
next to its canned result. -/
def execFails : conn := ⟨[.exec { insertUsers with err := some lostConnection }], some 0⟩

/-- A connection whose only expectation is a Query expectation with a canned error
next to its canned rows. -/
def queryFails : conn := ⟨[.query { selectAny with err := some lostConnection }], some 0⟩

/-- A connection whose first two expectations were fulfilled and whose third one was
not. -/
def twoDone : conn :=
  ⟨[.exec { insertUsers with triggered := true }, .query { selectAny with triggered := true },
    .exec insertUsers], some 2⟩

/-- The calls that answer the expectations of `beginExecQuery` one for one, the
queries written with extra white space. -/
def declaredCalls : List Call :=
  [.begin, .exec "INSERT  INTO users " [.int 1, .str "a"], .query " SELECT id FROM t" []]

/-- A connection whose first expectation is a Begin expectation with a canned error. -/
def beginFails : conn :=
  ⟨[.begin { beginPlain with err := some lostConnection }, .exec insertUsers], some 1⟩

/-- A connection whose only expectation is an Exec expectation declared without a
result. -/
def execNoResult : conn := ⟨[.exec { insertUsers with result := none }], some 0⟩

/-- A connection whose only expectation is a Query expectation declared without rows. -/
def queryNoRows : conn := ⟨[.query { selectAny with rows := none }], some 0⟩

/-- A connection whose Begin expectation was fulfilled and whose Exec expectation was
not. -/
def beginDone : conn :=
  ⟨[.begin { beginPlain with triggered := true }, .exec insertUsers], some 1⟩

/-- Operations made one after another on `beginExecQuery`: a `Prepare`, the matching
`Begin`, an `Exec` rejected for its arguments, a `Begin` out of order and the matching
`Query`. -/
def mixedOperations : List Operation :=
  [.prepare "SELECT 1", .call .begin, .call (.exec "INSERT INTO users" [.int 2]),
    .call .begin, .call (.query "SELECT 1" [])]

/-- A canned result read as rows: one row holding the two numbers of the result. -/
def resultAsRows (r : Result) : Rows :=
  ⟨["lastInsertId", "rowsAffected"], [[.int r.lastInsertId, .int r.rowsAffected]]⟩

/-- Canned rows read as a result: the number of rows as rows affected. -/
def rowsAsResult (r : Rows) : Result :=
  ⟨0, r.data.length⟩

/-! ## The next unfulfilled expectation -/

theorem nextFrom_eq_none (es : List expectation) (i : Nat) :
    nextFrom es i = none ↔ ∀ e ∈ es, e.fulfilled = true := by
  induction es generalizing i with
  | nil => simp [nextFrom]
  | cons e es ih =>
    cases h : e.fulfilled <;> simp [nextFrom, h, ih]

theorem nextFrom_eq_some (es : List expectation) (i j : Nat) (e : expectation) :
    nextFrom es i = some (j, e) ↔
      ∃ pre post, es = pre ++ e :: post ∧ (∀ x ∈ pre, x.fulfilled = true) ∧
        e.fulfilled = false ∧ j = i + pre.length := by
  induction es generalizing i with
  | nil => simp [nextFrom]
  | cons x es ih =>
    cases h : x.fulfilled
    · simp only [nextFrom, h, Bool.not_false, if_true, Option.some.injEq, Prod.mk.injEq]
      constructor
      · rintro ⟨rfl, rfl⟩
        exact ⟨[], es, rfl, by simp, h, by simp⟩
      · rintro ⟨pre, post, hes, hpre, he, hj⟩
        cases pre with
        | nil =>
          simp at hes
          exact ⟨by simpa using hj.symm, hes.1⟩
        | cons p pre =>
          simp at hes
          have := hpre p (by simp)
          rw [← hes.1, h] at this
          cases this
    · simp only [nextFrom, h, Bool.not_true, Bool.false_eq_true, if_false, ih]
      constructor
      · rintro ⟨pre, post, rfl, hpre, he, rfl⟩
        refine ⟨x :: pre, post, rfl, ?_, he, by simp; omega⟩
        intro y hy
        rcases List.mem_cons.1 hy with rfl | hy
        · exact h
        · exact hpre y hy
      · rintro ⟨pre, post, hes, hpre, he, hj⟩
        cases pre with
        | nil =>
          simp at hes
          rw [hes.1, he] at h
          cases h
        | cons p pre =>
          simp at hes
          refine ⟨pre, post, hes.2, fun y hy => hpre y (by simp [hy]), he, ?_⟩
          simp at hj
          omega

theorem getElem?_split (es : List expectation) (i : Nat) (e : expectation)
    (h : es[i]? = some e) : es = es.take i ++ e :: es.drop (i + 1) := by
  induction es generalizing i with
  | nil => simp at h
  | cons x es ih =>
    cases i with
    | zero => simp at h; simp [h]
    | succ i => simp at h; simpa using ih i h

theorem nextFrom_zero_iff (es : List expectation) (i : Nat) (e : expectation) :
    nextFrom es 0 = some (i, e) ↔
      (es[i]? = some e ∧ e.fulfilled = false ∧
        ∀ j, j < i → ∀ x, es[j]? = some x → x.fulfilled = true) := by
  rw [nextFrom_eq_some]
  constructor
  · rintro ⟨pre, post, rfl, hpre, he, rfl⟩
    refine ⟨?_, he, ?_⟩
    · rw [Nat.zero_add, List.getElem?_append_right (Nat.le_refl _)]
      simp
    intro j hj x hx
    simp only [Nat.zero_add] at hj
    rw [List.getElem?_append_left hj] at hx
    exact hpre x (List.getElem?_mem hx)
  · rintro ⟨hi, he, hlt⟩
    have hlen : i < es.length := by
      rcases List.getElem?_eq_some.1 hi with ⟨h, _⟩
      exact h
    refine ⟨es.take i, es.drop (i + 1), getElem?_split es i e hi, ?_, he, ?_⟩
    · intro x hx
      rcases List.getElem_of_mem hx with ⟨j, hj, rfl⟩
      have hj2 : j < i := by
        simp at hj
        omega
      apply hlt j hj2
      rw [List.getElem_take]
      exact List.getElem?_eq_getElem (by omega)
    · simp
      omega

/-- C2: `next` returns the entry with the smallest index whose `fulfilled()` is false
(every entry before it is fulfilled), it returns none exactly when the list is empty or
every entry is fulfilled, and it leaves the connection state as it was. -/
theorem next_first_unfulfilled (c : conn) :
    (next c).2 = c ∧
    ((next c).1 = none ↔
      (c.expectations = [] ∨ ∀ e ∈ c.expectations, e.fulfilled = true)) ∧
    (∀ i e, (next c).1 = some (i, e) ↔
      (c.expectations[i]? = some e ∧ e.fulfilled = false ∧
        ∀ j, j < i → ∀ x, c.expectations[j]? = some x → x.fulfilled = true)) := by
  refine ⟨rfl, ?_, ?_⟩
  · simp only [next, nextFrom_eq_none]
    constructor
    · intro h
      exact Or.inr h
    · rintro (h | h)
      · simp [h]
      · exact h
  · intro i e
    exact nextFrom_zero_iff c.expectations i e

/-! ## Calls with no expectation left -/

theorem next_state (c : conn) : (next c).2 = c := rfl

theorem next_none_of_all_fulfilled (c : conn)
    (h : c.expectations = [] ∨ ∀ e ∈ c.expectations, e.fulfilled = true) :
    (next c).1 = none := by
  apply (nextFrom_eq_none c.expectations 0).2
  rcases h with h | h
  · simp [h]
  · exact h

/-- C3: on a connection whose expectation list is empty or fully fulfilled, each of
`Begin`, `Exec` and `Query` returns a nil payload and a non-nil error, the one built
for a call with no expectation left, and leaves the connection state unchanged. -/
theorem no_expectation_left (K : Collaborators) (c : conn) (query : String)
    (args : List Value)
    (h : c.expectations = [] ∨ ∀ e ∈ c.expectations, e.fulfilled = true) :
    ((Begin K c).1.1 = none ∧ (∃ m, (Begin K c).1.2 = some (.sequence m)) ∧
      (Begin K c).2 = c) ∧
    ((Exec K c query args).1.1 = none ∧
      (∃ m, (Exec K c query args).1.2 = some (.sequence m)) ∧
      (Exec K c query args).2 = c) ∧
    ((Query K c query args).1.1 = none ∧
      (∃ m, (Query K c query args).1.2 = some (.sequence m)) ∧
      (Query K c query args).2 = c) := by
  have hn := next_none_of_all_fulfilled c h
  refine ⟨?_, ?_, ?_⟩
  · simp [Begin, hn, next_state]
  · simp [Exec, hn, next_state]
  · simp [Query, hn, next_state]

theorem no_expectation_left_witness :
    (noExpectations.expectations = [] ∨
      ∀ e ∈ noExpectations.expectations, e.fulfilled = true) ∧
    ((Begin literal noExpectations).1.1 = none ∧
      (∃ m, (Begin literal noExpectations).1.2 = some (.sequence m)) ∧
      (Begin literal noExpectations).2 = noExpectations) ∧
    ((Exec literal noExpectations "SELECT 1" [.int 7]).1.1 = none ∧
      (∃ m, (Exec literal noExpectations "SELECT 1" [.int 7]).1.2 = some (.sequence m)) ∧
      (Exec literal noExpectations "SELECT 1" [.int 7]).2 = noExpectations) ∧
    ((Query literal noExpectations "SELECT 1" [.int 7]).1.1 = none ∧
      (∃ m, (Query literal noExpectations "SELECT 1" [.int 7]).1.2 = some (.sequence m)) ∧
      (Query literal noExpectations "SELECT 1" [.int 7]).2 = noExpectations) :=
  ⟨Or.inl rfl, no_expectation_left literal noExpectations "SELECT 1" [.int 7] (Or.inl rfl)⟩

/-! ## Calls that meet an expectation of another kind -/

/-- C4: when the next unfulfilled expectation `A` is of another kind than the call,
the call returns a nil payload and the error built for an unexpected call, and the
connection state is the one before the call: `A` is neither triggered nor fulfilled,
no expectation has changed, and `next` still returns `A`. -/
theorem out_of_order_rejected (K : Collaborators) (c : conn) (i : Nat) (A : expectation)
    (query : String) (args : List Value) (h : (next c).1 = some (i, A)) :
    ((∀ etb, A ≠ .begin etb) →
      (Begin K c).1.1 = none ∧ (∃ m, (Begin K c).1.2 = some (.typeMismatch m)) ∧
        (Begin K c).2 = c ∧ (next (Begin K c).2).1 = some (i, A)) ∧
    ((∀ eq, A ≠ .exec eq) →
      (Exec K c query args).1.1 = none ∧
        (∃ m, (Exec K c query args).1.2 = some (.typeMismatch m)) ∧
        (Exec K c query args).2 = c ∧ (next (Exec K c query args).2).1 = some (i, A)) ∧
    ((∀ eq, A ≠ .query eq) →
      (Query K c query args).1.1 = none ∧
        (∃ m, (Query K c query args).1.2 = some (.typeMismatch m)) ∧
        (Query K c query args).2 = c ∧ (next (Query K c query args).2).1 = some (i, A)) ∧
    c.expectations[i]? = some A ∧ A.triggered = false ∧ A.fulfilled = false := by
  have hA := (nextFrom_zero_iff c.expectations i A).1 h
  refine ⟨?_, ?_, ?_, hA.1, hA.2.1, hA.2.1⟩
  · intro hk
    have hB : (Begin K c).2 = c := by
      cases A with
      | begin etb => exact absurd rfl (hk etb)
      | exec eq => simp [Begin, h, next_state]
      | query eq => simp [Begin, h, next_state]
    refine ⟨?_, ?_, hB, by rw [hB]; exact h⟩
    · cases A with
      | begin etb => exact absurd rfl (hk etb)
      | exec eq => simp [Begin, h]
      | query eq => simp [Begin, h]
    · cases A with
      | begin etb => exact absurd rfl (hk etb)
      | exec eq => simp [Begin, h]
      | query eq => simp [Begin, h]
  · intro hk
    have hB : (Exec K c query args).2 = c := by
      cases A with
      | exec eq => exact absurd rfl (hk eq)
      | begin eq => simp [Exec, h, next_state]
      | query eq => simp [Exec, h, next_state]
    refine ⟨?_, ?_, hB, by rw [hB]; exact h⟩
    · cases A with
      | exec eq => exact absurd rfl (hk eq)
      | begin eq => simp [Exec, h]
      | query eq => simp [Exec, h]
    · cases A with
      | exec eq => exact absurd rfl (hk eq)
      | begin eq => simp [Exec, h]
      | query eq => simp [Exec, h]
  · intro hk
    have hB : (Query K c query args).2 = c := by
      cases A with
      | query eq => exact absurd rfl (hk eq)
      | begin eq => simp [Query, h, next_state]
      | exec eq => simp [Query, h, next_state]
    refine ⟨?_, ?_, hB, by rw [hB]; exact h⟩
    · cases A with
      | query eq => exact absurd rfl (hk eq)
      | begin eq => simp [Query, h]
      | exec eq => simp [Query, h]
    · cases A with
      | query eq => exact absurd rfl (hk eq)
      | begin eq => simp [Query, h]
      | exec eq => simp [Query, h]

theorem out_of_order_rejected_witness :
    (next execThenQuery).1 = some (0, .exec insertUsers) ∧
    ((Query literal execThenQuery "SELECT 1" []).1.1 = none ∧
      (∃ m, (Query literal execThenQuery "SELECT 1" []).1.2 = some (.typeMismatch m)) ∧
      (Query literal execThenQuery "SELECT 1" []).2 = execThenQuery ∧
      (next (Query literal execThenQuery "SELECT 1" []).2).1
        = some (0, .exec insertUsers)) ∧
    ((Begin literal execThenQuery).1.1 = none ∧
      (∃ m, (Begin literal execThenQuery).1.2 = some (.typeMismatch m)) ∧
      (Begin literal execThenQuery).2 = execThenQuery ∧
      (next (Begin literal execThenQuery).2).1 = some (0, .exec insertUsers)) ∧
    (expectation.exec insertUsers).triggered = false ∧
    (expectation.exec insertUsers).fulfilled = false :=
  have h := out_of_order_rejected literal execThenQuery 0 (.exec insertUsers)
    "SELECT 1" [] rfl
  ⟨rfl, h.2.2.1 (fun _ hq => by cases hq), h.1 (fun _ hb => by cases hb),
    h.2.2.2.2.1, h.2.2.2.2.2⟩

/-! ## Calls that meet an expectation of their own kind -/

theorem set_length_append (pre post : List expectation) (a x : expectation) :
    (pre ++ a :: post).set pre.length x = pre ++ x :: post := by
  induction pre with
  | nil => rfl
  | cons p pre ih => simp [ih]

theorem nextFrom_append_fulfilled (pre rest : List expectation) (k : Nat)
    (h : ∀ x ∈ pre, x.fulfilled = true) :
    nextFrom (pre ++ rest) k = nextFrom rest (k + pre.length) := by
  induction pre generalizing k with
  | nil => rfl
  | cons p pre ih =>
    have hp : p.fulfilled = true := h p (by simp)
    have hpre : ∀ x ∈ pre, x.fulfilled = true := fun x hx => h x (by simp [hx])
    have hk : k + 1 + pre.length = k + (pre.length + 1) := by omega
    have hstep : nextFrom (p :: (pre ++ rest)) k = nextFrom (pre ++ rest) (k + 1) := by
      simp [nextFrom, hp]
    rw [List.cons_append, hstep, ih (k + 1) hpre, List.length_cons, hk]

theorem trigger_fulfilled (e : expectation) : e.trigger.fulfilled = true := by
  cases e <;> rfl

theorem Exec_state (K : Collaborators) (c : conn) (i : Nat) (eq : expectedExec)
    (query : String) (args : List Value) (h : (next c).1 = some (i, .exec eq)) :
    (Exec K c query args).2
      = ⟨c.expectations.set i (expectation.exec eq).trigger, c.active⟩ := by
  simp only [Exec, h, next_state]
  split_ifs <;> rfl

theorem Query_state (K : Collaborators) (c : conn) (i : Nat) (eq : expectedQuery)
    (query : String) (args : List Value) (h : (next c).1 = some (i, .query eq)) :
    (Query K c query args).2
      = ⟨c.expectations.set i (expectation.query eq).trigger, c.active⟩ := by
  simp only [Query, h, next_state]
  split_ifs <;> rfl

theorem Begin_state (K : Collaborators) (c : conn) (i : Nat) (etb : expectedBegin)
    (h : (next c).1 = some (i, .begin etb)) :
    (Begin K c).2 = ⟨c.expectations.set i (expectation.begin etb).trigger, c.active⟩ := by
  simp only [Begin, h, next_state]
  rfl

/-- C6: when the next unfulfilled expectation is an Exec expectation (for `Exec`) or a
Query expectation (for `Query`) that carries a canned error, the call returns a nil
payload and exactly that error, for every query text and every argument list, whatever
the regex, the expected arguments and the canned payload of the expectation are. -/
theorem canned_error_first (K : Collaborators) (c : conn) (i : Nat) (err : Error)
    (query : String) (args : List Value) :
    (∀ eq : expectedExec, (next c).1 = some (i, .exec eq) → eq.err = some err →
      (Exec K c query args).1 = (none, some err)) ∧
    (∀ eq : expectedQuery, (next c).1 = some (i, .query eq) → eq.err = some err →
      (Query K c query args).1 = (none, some err)) := by
  constructor
  · intro eq h herr
    simp [Exec, h, herr]
  · intro eq h herr
    simp [Query, h, herr]

theorem canned_error_first_witness :
    (Exec literal execFails "DELETE FROM t" [.bool true]).1 = (none, some lostConnection) ∧
    (Query literal queryFails "DELETE FROM t" [.bool true]).1
      = (none, some lostConnection) :=
  ⟨(canned_error_first literal execFails 0 lostConnection "DELETE FROM t" [.bool true]).1
      { insertUsers with err := some lostConnection } rfl rfl,
    (canned_error_first literal queryFails 0 lostConnection "DELETE FROM t" [.bool true]).2
      { selectAny with err := some lostConnection } rfl rfl⟩

/-- C7: when the next unfulfilled expectation is an Exec expectation with no canned
error and the canned result `r`, the normalised query satisfies its regex and the
arguments satisfy its expected arguments, `Exec` returns exactly `r` and a nil error. -/
theorem exec_round_trip (K : Collaborators) (c : conn) (i : Nat) (eq : expectedExec)
    (r : Result) (query : String) (args : List Value)
    (h : (next c).1 = some (i, .exec eq)) (herr : eq.err = none)
    (hres : eq.result = some r)
    (hq : K.queryMatches eq.sqlRegex (K.stripQuery query) = true)
    (ha : K.argsMatches eq.args args = true) :
    (Exec K c query args).1 = (some r, none) := by
  simp [Exec, h, herr, hres, hq, ha]

theorem exec_round_trip_witness :
    (next execThenQuery).1 = some (0, .exec insertUsers) ∧
    (Exec literal execThenQuery "INSERT INTO users" [.int 1, .str "a"]).1
      = (some ⟨1, 1⟩, none) :=
  ⟨rfl, exec_round_trip literal execThenQuery 0 insertUsers ⟨1, 1⟩ "INSERT INTO users"
    [.int 1, .str "a"] rfl rfl rfl (by decide) (by decide)⟩

/-! ## The audit of `Close` -/

theorem closeLoop_eq_none (es : List expectation) (msgs : List String) :
    closeLoop es msgs = none ↔ ∀ e ∈ es, e.fulfilled = true := by
  induction es generalizing msgs with
  | nil => simp [closeLoop]
  | cons e es ih =>
    cases h : e.fulfilled <;> simp [closeLoop, h, ih]

theorem closeLoop_first_unfulfilled (pre post : List expectation) (e : expectation)
    (msgs : List String) (hpre : ∀ x ∈ pre, x.fulfilled = true)
    (he : e.fulfilled = false) :
    closeLoop (pre ++ e :: post) msgs
      = some (remainingError (String.intercalate "\n" (msgs ++ pre.map confirmation)) e) := by
  induction pre generalizing msgs with
  | nil => simp [closeLoop, he]
  | cons p pre ih =>
    have hp : p.fulfilled = true := hpre p (by simp)
    have hrest : ∀ x ∈ pre, x.fulfilled = true := fun x hx => hpre x (by simp [hx])
    have hstep : closeLoop (p :: (pre ++ e :: post)) msgs
        = closeLoop (pre ++ e :: post) (msgs ++ [confirmation p]) := by
      simp [closeLoop, hp]
    rw [List.cons_append, hstep, ih (msgs ++ [confirmation p]) hrest]
    simp

/-- C8: `Close` returns nil if and only if every expectation of the list is fulfilled,
in particular for the empty list, and a non-nil error as soon as one expectation is
unfulfilled. -/
theorem close_nil_iff (c : conn) :
    ((Close c).1 = none ↔ ∀ e ∈ c.expectations, e.fulfilled = true) ∧
    (c.expectations = [] → (Close c).1 = none) ∧
    ((∃ e ∈ c.expectations, e.fulfilled = false) → (Close c).1.isSome = true) := by
  have hiff : (Close c).1 = none ↔ ∀ e ∈ c.expectations, e.fulfilled = true :=
    closeLoop_eq_none c.expectations []
  refine ⟨hiff, ?_, ?_⟩
  · intro h
    apply hiff.2
    simp [h]
  · rintro ⟨e, he, hf⟩
    cases hc : (Close c).1 with
    | some err => rfl
    | none =>
      have := hiff.1 hc e he
      rw [hf] at this
      cases this

theorem close_nil_iff_witness :
    ((Close execThenQuery).1 = none ↔
      ∀ e ∈ execThenQuery.expectations, e.fulfilled = true) ∧
    (Close noExpectations).1 = none ∧
    (Close execThenQuery).1.isSome = true :=
  ⟨(close_nil_iff execThenQuery).1, (close_nil_iff noExpectations).2.1 rfl,
    (close_nil_iff execThenQuery).2.2 ⟨.exec insertUsers, by decide, rfl⟩⟩

/-- C9: whatever the state before and whatever `Close` returns, after `Close` the
expectation list is empty and the pointer `active` is nil; a second `Close` right after
returns nil and leaves that state unchanged. -/
theorem close_resets (c : conn) :
    (Close c).2.expectations = [] ∧ (Close c).2.active = none ∧
    (Close (Close c).2).1 = none ∧ (Close (Close c).2).2 = (Close c).2 :=
  ⟨rfl, rfl, rfl, rfl⟩

theorem next_split (c : conn) (i : Nat) (e : expectation)
    (h : (next c).1 = some (i, e)) :
    ∃ pre post, c.expectations = pre ++ e :: post ∧ (∀ x ∈ pre, x.fulfilled = true) ∧
      e.fulfilled = false ∧ i = pre.length := by
  rcases (nextFrom_eq_some c.expectations 0 i e).1 h with ⟨pre, post, hes, hpre, he, hi⟩
  exact ⟨pre, post, hes, hpre, he, by simpa using hi⟩

theorem take_succ_split (es pre post : List expectation) (e : expectation)
    (hes : es = pre ++ e :: post) :
    es.take pre.length = pre ∧ es.take (pre.length + 1) = pre ++ [e] ∧
      es.drop (pre.length + 1) = post := by
  subst hes
  refine ⟨by simp, ?_, ?_⟩
  · rw [List.take_append_eq_append_take]
    simp
  · rw [List.drop_append_eq_append_drop]
    simp

/-- C10: when the first unfulfilled entry of the list is `e` at index `i`, the error of
`Close` is the one built from the confirmation messages of the entries before `i`, in
declaration order and joined by newlines; its text is that joined text, a newline, and
a message naming the type and the regex of `e` (the type alone for a Begin
expectation); and `Close` returns the same error for every list that agrees with this
one up to index `i`, whatever follows. -/
theorem close_error_text (c : conn) (i : Nat) (e : expectation)
    (h : (next c).1 = some (i, e)) :
    (Close c).1 = some (remainingError
      (String.intercalate "\n" ((c.expectations.take i).map confirmation)) e) ∧
    (∀ ev, e = .exec ev → (Close c).1.map Error.text = some
      (String.intercalate "\n" ((c.expectations.take i).map confirmation) ++ "\n"
        ++ ("there is a remaining expectation *sqlmock.expectedExec, \"" ++ ev.sqlRegex
          ++ "\" which was not matched yet"))) ∧
    (∀ ev, e = .query ev → (Close c).1.map Error.text = some
      (String.intercalate "\n" ((c.expectations.take i).map confirmation) ++ "\n"
        ++ ("there is a remaining expectation *sqlmock.expectedQuery, \"" ++ ev.sqlRegex
          ++ "\" which was not matched yet"))) ∧
    (∀ ev, e = .begin ev → (Close c).1.map Error.text = some
      (String.intercalate "\n" ((c.expectations.take i).map confirmation) ++ "\n"
        ++ "there is a remaining expectation *sqlmock.expectedBegin which was not matched yet")) ∧
    (∀ c2 : conn, c2.expectations.take (i + 1) = c.expectations.take (i + 1) →
      (Close c2).1 = (Close c).1) := by
  rcases next_split c i e h with ⟨pre, post, hes, hpre, he, rfl⟩
  have hclose : (Close c).1 = some (remainingError
      (String.intercalate "\n" ((c.expectations.take pre.length).map confirmation)) e) := by
    rw [(take_succ_split c.expectations pre post e hes).1]
    simp only [Close, hes]
    rw [closeLoop_first_unfulfilled pre post e [] hpre he]
    simp
  have hnl : ∀ s t : String, s ++ "\n" ++ t = s ++ ("\n" ++ t) := fun s t =>
    String.append_assoc s "\n" t
  refine ⟨hclose, ?_, ?_, ?_, ?_⟩
  · rintro ev rfl
    rw [hclose]
    simp only [remainingError, expectation.typeName, Option.map_some', Error.text,
      String.append_assoc, hnl]
    rfl
  · rintro ev rfl
    rw [hclose]
    simp only [remainingError, expectation.typeName, Option.map_some', Error.text,
      String.append_assoc, hnl]
    rfl
  · rintro ev rfl
    rw [hclose]
    simp only [remainingError, expectation.typeName, Option.map_some', Error.text,
      String.append_assoc, hnl]
    rfl
  · intro c2 h2
    rw [(take_succ_split c.expectations pre post e hes).2.1] at h2
    have h3 : c2.expectations = pre ++ e :: c2.expectations.drop (pre.length + 1) := by
      conv_lhs => rw [← List.take_append_drop (pre.length + 1) c2.expectations, h2]
      simp
    have hc2 : (Close c2).1 = closeLoop c2.expectations [] := rfl
    have hc : (Close c).1 = closeLoop c.expectations [] := rfl
    rw [hc2, hc, h3, hes, closeLoop_first_unfulfilled pre _ e [] hpre he,
      closeLoop_first_unfulfilled pre post e [] hpre he]

theorem close_error_text_witness :
    (next twoDone).1 = some (2, .exec insertUsers) ∧
    (Close twoDone).1.map Error.text = some
      ("execed \"INSERT INTO users\"\nqueried \"SELECT\"\n"
        ++ "there is a remaining expectation *sqlmock.expectedExec, \"INSERT INTO users\""
        ++ " which was not matched yet") :=
  ⟨rfl, ((close_error_text twoDone 2 (.exec insertUsers) rfl).2.1 insertUsers rfl).trans
    (by decide)⟩

/-! ## Calls made in the declared order -/

theorem call_matching (K : Collaborators) (c : conn) (i : Nat) (e : expectation) (k : Call)
    (h : (next c).1 = some (i, e)) (ha : answers K e k = true) :
    call K c k = (cannedReply e, ⟨c.expectations.set i e.trigger, c.active⟩) := by
  cases e with
  | begin etb =>
    cases k with
    | begin =>
      simp only [answers, Option.isNone_iff_eq_none] at ha
      simp [call, Begin, h, next_state, ha, cannedReply, expectation.trigger]
    | exec q a => simp [answers] at ha
    | query q a => simp [answers] at ha
  | exec eq =>
    cases k with
    | begin => simp [answers] at ha
    | exec q a =>
      simp only [answers, Bool.and_eq_true, Option.isNone_iff_eq_none] at ha
      obtain ⟨⟨⟨herr, hres⟩, hq⟩, harg⟩ := ha
      have hres := Option.isSome_iff_ne_none.1 hres
      simp [call, Exec, h, next_state, herr, hres, hq, harg, cannedReply,
        expectation.trigger]
    | query q a => simp [answers] at ha
  | query eq =>
    cases k with
    | begin => simp [answers] at ha
    | exec q a => simp [answers] at ha
    | query q a =>
      simp only [answers, Bool.and_eq_true, Option.isNone_iff_eq_none] at ha
      obtain ⟨⟨⟨herr, hres⟩, hq⟩, harg⟩ := ha
      have hres := Option.isSome_iff_ne_none.1 hres
      simp [call, Query, h, next_state, herr, hres, hq, harg, cannedReply,
        expectation.trigger]

theorem calls_matching (K : Collaborators) (active : Option Nat) (ms : List expectation)
    (ks : List Call) (hmatch : List.Forall₂ (fun e k => answers K e k = true) ms ks) :
    ∀ done rest : List expectation, (∀ x ∈ done, x.fulfilled = true) →
      (∀ x ∈ ms, x.fulfilled = false) →
      calls K ⟨done ++ (ms ++ rest), active⟩ ks
        = (ms.map cannedReply, ⟨done ++ (ms.map expectation.trigger ++ rest), active⟩) := by
  induction hmatch with
  | nil =>
    intro done rest _ _
    rfl
  | @cons e k ms ks hek _ ih =>
    intro done rest hdone hms
    have he : e.fulfilled = false := hms e (by simp)
    have hnext : (next ⟨done ++ (e :: ms ++ rest), active⟩).1 = some (done.length, e) := by
      apply (nextFrom_eq_some _ 0 done.length e).2
      exact ⟨done, ms ++ rest, rfl, hdone, he, by simp⟩
    have hcall := call_matching K ⟨done ++ (e :: ms ++ rest), active⟩ done.length e k
      hnext hek
    have hset : (done ++ (e :: ms ++ rest)).set done.length e.trigger
        = (done ++ [e.trigger]) ++ (ms ++ rest) := by
      rw [List.cons_append, set_length_append done (ms ++ rest) e e.trigger]
      simp
    simp only [hset] at hcall
    have hdone2 : ∀ x ∈ done ++ [e.trigger], x.fulfilled = true := by
      intro x hx
      rcases List.mem_append.1 hx with hx | hx
      · exact hdone x hx
      · rw [List.mem_singleton.1 hx]
        exact trigger_fulfilled e
    have hms2 : ∀ x ∈ ms, x.fulfilled = false := fun x hx => hms x (by simp [hx])
    have hrec := ih (done ++ [e.trigger]) rest hdone2 hms2
    simp only [calls, hcall, hrec]
    simp

/-- C1: for a declared list of expectations (none fulfilled yet, none with a canned
error, Exec and Query expectations with their payload set) and calls that answer the
expectations one for one in order, the first `i` calls all succeed and return the canned
payloads of the first `i` expectations, and after them exactly the first `i`
expectations are triggered, everything else being as declared: the fulfilled flags are
`i` times true followed by false throughout, so each call moves exactly one expectation
from unfulfilled to fulfilled. -/
theorem matching_calls_in_order (K : Collaborators) (es : List expectation)
    (active : Option Nat) (cs : List Call)
    (hfresh : ∀ e ∈ es, e.fulfilled = false)
    (hmatch : List.Forall₂ (fun e k => answers K e k = true) es cs)
    (i : Nat) (hi : i ≤ cs.length) :
    (calls K ⟨es, active⟩ (cs.take i)).1 = (es.take i).map cannedReply ∧
    (calls K ⟨es, active⟩ (cs.take i)).2
      = ⟨(es.take i).map expectation.trigger ++ es.drop i, active⟩ ∧
    (calls K ⟨es, active⟩ (cs.take i)).2.expectations.map expectation.fulfilled
      = List.replicate i true ++ List.replicate (es.length - i) false := by
  have hlen : es.length = cs.length := hmatch.length_eq
  have htake := List.forall₂_take i hmatch
  have hfresh2 : ∀ x ∈ es.take i, x.fulfilled = false :=
    fun x hx => hfresh x (List.mem_of_mem_take hx)
  have hrun := calls_matching K active (es.take i) (cs.take i) htake [] (es.drop i)
    (by simp) hfresh2
  simp only [List.nil_append, List.take_append_drop] at hrun
  refine ⟨by rw [hrun], by rw [hrun], ?_⟩
  rw [hrun]
  simp only [List.map_append, List.map_map]
  congr 1
  · apply List.eq_replicate_iff.2
    refine ⟨by simp; omega, ?_⟩
    intro b hb
    rcases List.mem_map.1 hb with ⟨x, _, rfl⟩
    exact trigger_fulfilled x
  · apply List.eq_replicate_iff.2
    refine ⟨by simp, ?_⟩
    intro b hb
    rcases List.mem_map.1 hb with ⟨x, hx, rfl⟩
    exact hfresh x (List.mem_of_mem_drop hx)

theorem matching_calls_in_order_witness :
    (∀ e ∈ beginExecQuery.expectations, e.fulfilled = false) ∧
    List.Forall₂ (fun e k => answers literal e k = true) beginExecQuery.expectations
      declaredCalls ∧
    (calls literal beginExecQuery (declaredCalls.take 2)).1
      = (beginExecQuery.expectations.take 2).map cannedReply ∧
    (calls literal beginExecQuery (declaredCalls.take 2)).2
      = ⟨(beginExecQuery.expectations.take 2).map expectation.trigger
          ++ beginExecQuery.expectations.drop 2, some 2⟩ ∧
    (calls literal beginExecQuery (declaredCalls.take 2)).2.expectations.map
        expectation.fulfilled
      = List.replicate 2 true ++ List.replicate (beginExecQuery.expectations.length - 2) false :=
  ⟨by decide, .cons (by decide) (.cons (by decide) (.cons (by decide) .nil)),
    matching_calls_in_order literal beginExecQuery.expectations (some 2) declaredCalls
      (by decide) (.cons (by decide) (.cons (by decide) (.cons (by decide) .nil)))
      2 (by decide)⟩

/-! ## Calls rejected after the expectation was selected -/

theorem nextFrom_index_le (es : List expectation) (k j : Nat) (e : expectation)
    (h : nextFrom es k = some (j, e)) : k ≤ j := by
  rcases (nextFrom_eq_some es k j e).1 h with ⟨pre, _, _, _, _, hj⟩
  omega

theorem after_trigger (c : conn) (i : Nat) (A : expectation)
    (h : (next c).1 = some (i, A)) (c2 : conn)
    (hc2 : c2.expectations = c.expectations.set i A.trigger) :
    c2.expectations[i]? = some A.trigger ∧
    (next c2).1 = nextFrom (c.expectations.drop (i + 1)) (i + 1) ∧
    (∀ j e, (next c2).1 = some (j, e) → i < j) ∧
    ((Close c2).1 = none ↔ ∀ e ∈ c.expectations.drop (i + 1), e.fulfilled = true) := by
  rcases next_split c i A h with ⟨pre, post, hes, hpre, _, rfl⟩
  have hdrop := (take_succ_split c.expectations pre post A hes).2.2
  have hset : c2.expectations = (pre ++ [A.trigger]) ++ post := by
    rw [hc2, hes, set_length_append]
    simp
  have hdone : ∀ x ∈ pre ++ [A.trigger], x.fulfilled = true := by
    intro x hx
    rcases List.mem_append.1 hx with hx | hx
    · exact hpre x hx
    · rw [List.mem_singleton.1 hx]
      exact trigger_fulfilled A
  have hnext : (next c2).1 = nextFrom post (pre.length + 1) := by
    simp only [next, hset]
    rw [nextFrom_append_fulfilled _ post 0 hdone]
    simp
  refine ⟨?_, ?_, ?_, ?_⟩
  · rw [hset, List.append_assoc, List.getElem?_append_right (Nat.le_refl _)]
    simp
  · rw [hnext, hdrop]
  · intro j e hj
    rw [hnext] at hj
    exact nextFrom_index_le post (pre.length + 1) j e hj
  · have hcl : (Close c2).1 = closeLoop c2.expectations [] := rfl
    rw [hcl, closeLoop_eq_none, hset, hdrop]
    constructor
    · intro hall e he
      exact hall e (by simp [he])
    · intro hall e he
      rcases List.mem_append.1 he with he | he
      · exact hdone e he
      · exact hall e he

/-- C5, the code at the failing input: the Query expectation with pattern `SELECT` is
the only expectation.  `Query("DELETE FROM t")` is rejected with the pattern-mismatch
error, yet it has set `triggered` before the check and leaves the connection in the very
state the accepted call `Query("SELECT 1")` leaves, so that whatever `fulfilled()` reads
from an expectation, it answers for the rejected expectation what it answers for the
accepted one.  With `fulfilled()` reading `triggered`, `next` then returns nil and
`Close` returns nil: the rejected expectation is neither offered again nor reported as
unmet. -/
theorem rejected_query_leaves_accepted_state :
    (next oneQuery).1 = some (0, .query selectAny) ∧
    (Query literal oneQuery "DELETE FROM t" []).1
      = (none, some (.patternMismatch
          "query \x27DELETE FROM t\x27, does not match regex [SELECT]")) ∧
    (Query literal oneQuery "DELETE FROM t" []).2.expectations.map expectation.triggered
      = [true] ∧
    (Query literal oneQuery "SELECT 1" []).1 = (selectAny.rows, none) ∧
    (Query literal oneQuery "DELETE FROM t" []).2
      = (Query literal oneQuery "SELECT 1" []).2 ∧
    (∀ observe : expectation → Bool,
      (Query literal oneQuery "DELETE FROM t" []).2.expectations.map observe
        = (Query literal oneQuery "SELECT 1" []).2.expectations.map observe) ∧
    (Query literal oneQuery "DELETE FROM t" []).2.expectations.map expectation.fulfilled
      = [true] ∧
    (next (Query literal oneQuery "DELETE FROM t" []).2).1 = none ∧
    (Close (Query literal oneQuery "DELETE FROM t" []).2).1 = none := by
  have hstate : (Query literal oneQuery "DELETE FROM t" []).2
      = (Query literal oneQuery "SELECT 1" []).2 := by decide
  refine ⟨by decide, by decide, by decide, by decide, hstate, ?_, by decide, by decide,
    by decide⟩
  intro observe
  rw [hstate]

/-- Once `next` has returned an Exec expectation (for `Exec`) or a Query expectation
(for `Query`), the connection state after the call is the state before it with the
`triggered` field of that expectation set, for every query text and every argument
list: an accepted call and a rejected call leave the same connection state. -/
theorem selected_call_state (K : Collaborators) (c : conn) (i : Nat)
    (query query2 : String) (args args2 : List Value) :
    (∀ eq : expectedExec, (next c).1 = some (i, .exec eq) →
      (Exec K c query args).2
        = ⟨c.expectations.set i (.exec { eq with triggered := true }), c.active⟩ ∧
      (Exec K c query args).2 = (Exec K c query2 args2).2) ∧
    (∀ eq : expectedQuery, (next c).1 = some (i, .query eq) →
      (Query K c query args).2
        = ⟨c.expectations.set i (.query { eq with triggered := true }), c.active⟩ ∧
      (Query K c query args).2 = (Query K c query2 args2).2) := by
  constructor
  · intro eq h
    exact ⟨Exec_state K c i eq query args h,
      (Exec_state K c i eq query args h).trans (Exec_state K c i eq query2 args2 h).symm⟩
  · intro eq h
    exact ⟨Query_state K c i eq query args h,
      (Query_state K c i eq query args h).trans (Query_state K c i eq query2 args2 h).symm⟩

theorem selected_call_state_witness :
    (next execThenQuery).1 = some (0, .exec insertUsers) ∧
    (Exec literal execThenQuery "INSERT INTO users" [.int 1, .str "a"]).1.2 = none ∧
    (Exec literal execThenQuery "DELETE FROM t" []).1.2.isSome = true ∧
    (Exec literal execThenQuery "INSERT INTO users" [.int 1, .str "a"]).2
      = (Exec literal execThenQuery "DELETE FROM t" []).2 :=
  ⟨rfl, by decide, by decide,
    ((selected_call_state literal execThenQuery 0 "INSERT INTO users" "DELETE FROM t"
      [.int 1, .str "a"] []).1 insertUsers rfl).2⟩

/-! ## Prepare -/

/-- C12: `Prepare` returns a nil error and a statement handle carrying the normalised
query `stripQuery(query)`, for every query and every connection state, and leaves the
connection state as it was: the expectation list with all its flags is unchanged and
`next` returns the same expectation before and after. -/
theorem prepare_consumes_nothing (K : Collaborators) (c : conn) (query : String) :
    (Prepare K c query).1 = (some ⟨K.stripQuery query⟩, none) ∧
    (Prepare K c query).2 = c ∧
    (Prepare K c query).2.expectations = c.expectations ∧
    (next (Prepare K c query).2).1 = (next c).1 :=
  ⟨rfl, rfl, rfl, rfl⟩

/-! ## Begin, and the checks of Exec and Query in their order -/

theorem next_index_lt (c : conn) (i : Nat) (e : expectation)
    (h : (next c).1 = some (i, e)) : i < c.expectations.length := by
  rcases next_split c i e h with ⟨pre, post, hes, _, _, rfl⟩
  rw [hes]
  simp

/-- C14: when the next unfulfilled expectation is a Begin expectation, `Begin` returns a
non-nil transaction handle together with exactly the canned error of the expectation
(nil when none was declared, and the handle also when the error is non-nil); afterwards
that expectation has its `triggered` field set and every other entry is as before. -/
theorem begin_on_begin (K : Collaborators) (c : conn) (i : Nat) (etb : expectedBegin)
    (h : (next c).1 = some (i, .begin etb)) :
    (Begin K c).1 = (some {}, etb.err) ∧
    (Begin K c).2
      = ⟨c.expectations.set i (.begin { etb with triggered := true }), c.active⟩ ∧
    (Begin K c).2.expectations[i]? = some (.begin { etb with triggered := true }) ∧
    (∀ j, j ≠ i → (Begin K c).2.expectations[j]? = c.expectations[j]?) := by
  have hlt := next_index_lt c i _ h
  have hst := Begin_state K c i etb h
  refine ⟨by simp [Begin, h], hst, ?_, ?_⟩
  · rw [hst]
    simp [hlt, expectation.trigger]
  · intro j hj
    rw [hst]
    simp [List.getElem?_set_ne (Ne.symm hj)]

theorem begin_on_begin_witness :
    (next beginFails).1 = some (0, .begin { beginPlain with err := some lostConnection }) ∧
    (Begin literal beginFails).1 = (some {}, some lostConnection) ∧
    (Begin literal beginFails).2
      = ⟨beginFails.expectations.set 0
          (.begin { triggered := true, err := some lostConnection }), some 1⟩ :=
  have h := begin_on_begin literal beginFails 0
    { beginPlain with err := some lostConnection } rfl
  ⟨rfl, h.1, h.2.1⟩

/-- C15: when the next unfulfilled expectation is an Exec expectation with no canned
error and no canned result (a Query expectation with no canned error and no canned
rows), `Exec` (`Query`) returns a nil payload and the error built for a payload that
was not set, for every query and every argument list and whatever `queryMatches` and
`argsMatches` answer: the check comes before the regex and the argument checks. -/
theorem payload_not_set (K : Collaborators) (c : conn) (i : Nat) (query : String)
    (args : List Value) :
    (∀ eq : expectedExec, (next c).1 = some (i, .exec eq) → eq.err = none →
      eq.result = none →
      (Exec K c query args).1.1 = none ∧
        ∃ m, (Exec K c query args).1.2 = some (.configuration m)) ∧
    (∀ eq : expectedQuery, (next c).1 = some (i, .query eq) → eq.err = none →
      eq.rows = none →
      (Query K c query args).1.1 = none ∧
        ∃ m, (Query K c query args).1.2 = some (.configuration m)) := by
  constructor
  · intro eq h herr hres
    simp [Exec, h, herr, hres]
  · intro eq h herr hres
    simp [Query, h, herr, hres]

theorem payload_not_set_witness :
    literal.queryMatches insertUsers.sqlRegex (literal.stripQuery "INSERT INTO users") = true ∧
    literal.argsMatches insertUsers.args [.int 1, .str "a"] = true ∧
    ((Exec literal execNoResult "INSERT INTO users" [.int 1, .str "a"]).1.1 = none ∧
      ∃ m, (Exec literal execNoResult "INSERT INTO users" [.int 1, .str "a"]).1.2
        = some (.configuration m)) ∧
    ((Query literal queryNoRows "SELECT 1" []).1.1 = none ∧
      ∃ m, (Query literal queryNoRows "SELECT 1" []).1.2 = some (.configuration m)) :=
  ⟨by decide, by decide,
    (payload_not_set literal execNoResult 0 "INSERT INTO users" [.int 1, .str "a"]).1
      { insertUsers with result := none } rfl rfl rfl,
    (payload_not_set literal queryNoRows 0 "SELECT 1" []).2
      { selectAny with rows := none } rfl rfl rfl⟩

/-- C18: when the next unfulfilled expectation is of the kind of the call (an Exec
expectation for `Exec`, a Query expectation for `Query`), its `triggered` field is true
after the call and nothing else of it has changed, for every query and every argument
list, hence whatever the outcome of the call is: success, canned error, payload not
set, regex not matched or arguments not matched. -/
theorem triggered_whatever_outcome (K : Collaborators) (c : conn) (i : Nat)
    (query : String) (args : List Value) :
    (∀ eq : expectedExec, (next c).1 = some (i, .exec eq) →
      (Exec K c query args).2.expectations[i]?
          = some (.exec { eq with triggered := true }) ∧
        (Exec K c query args).2.expectations[i]?.map expectation.triggered = some true) ∧
    (∀ eq : expectedQuery, (next c).1 = some (i, .query eq) →
      (Query K c query args).2.expectations[i]?
          = some (.query { eq with triggered := true }) ∧
        (Query K c query args).2.expectations[i]?.map expectation.triggered = some true) := by
  constructor
  · intro eq h
    have hlt := next_index_lt c i _ h
    rw [Exec_state K c i eq query args h]
    simp [hlt, expectation.trigger, expectation.triggered]
  · intro eq h
    have hlt := next_index_lt c i _ h
    rw [Query_state K c i eq query args h]
    simp [hlt, expectation.trigger, expectation.triggered]

theorem triggered_whatever_outcome_witness :
    (outcome (Exec literal execThenQuery "INSERT INTO users" [.int 1, .str "a"]).1.2
        = .success ∧
      (Exec literal execThenQuery "INSERT INTO users" [.int 1, .str "a"]).2.expectations[0]?.map
        expectation.triggered = some true) ∧
    (outcome (Exec literal execThenQuery "INSERT INTO users" [.int 2]).1.2 = .argsMismatch ∧
      (Exec literal execThenQuery "INSERT INTO users" [.int 2]).2.expectations[0]?.map
        expectation.triggered = some true) ∧
    (outcome (Exec literal execFails "INSERT INTO users" []).1.2 = .canned ∧
      (Exec literal execFails "INSERT INTO users" []).2.expectations[0]?.map
        expectation.triggered = some true) ∧
    (outcome (Query literal queryNoRows "SELECT 1" []).1.2 = .configuration ∧
      (Query literal queryNoRows "SELECT 1" []).2.expectations[0]?.map
        expectation.triggered = some true) ∧
    (outcome (Query literal oneQuery "DELETE FROM t" []).1.2 = .patternMismatch ∧
      (Query literal oneQuery "DELETE FROM t" []).2.expectations[0]?.map
        expectation.triggered = some true) :=
  ⟨⟨by decide,
      ((triggered_whatever_outcome literal execThenQuery 0 "INSERT INTO users"
        [.int 1, .str "a"]).1 insertUsers rfl).2⟩,
    ⟨by decide,
      ((triggered_whatever_outcome literal execThenQuery 0 "INSERT INTO users"
        [.int 2]).1 insertUsers rfl).2⟩,
    ⟨by decide,
      ((triggered_whatever_outcome literal execFails 0 "INSERT INTO users" []).1
        { insertUsers with err := some lostConnection } rfl).2⟩,
    ⟨by decide,
      ((triggered_whatever_outcome literal queryNoRows 0 "SELECT 1" []).2
        { selectAny with rows := none } rfl).2⟩,
    ⟨by decide,
      ((triggered_whatever_outcome literal oneQuery 0 "DELETE FROM t" []).2
        selectAny rfl).2⟩⟩

/-! ## `Close` and `next` -/

/-- C19: `Close` returns a non-nil error exactly when `next`, evaluated on the same
state, returns an expectation, and the error is then the one built for that very
expectation: it names its type and, for an Exec or a Query expectation, its regex. -/
theorem close_agrees_with_next (c : conn) :
    (Close c).1.isSome = (next c).1.isSome ∧
    ((Close c).1 = none ↔ (next c).1 = none) ∧
    (∀ i e, (next c).1 = some (i, e) →
      (Close c).1 = some (remainingError
        (String.intercalate "\n" ((c.expectations.take i).map confirmation)) e)) := by
  have hnone : (Close c).1 = none ↔ (next c).1 = none := by
    rw [show (Close c).1 = closeLoop c.expectations [] from rfl,
      show (next c).1 = nextFrom c.expectations 0 from rfl, closeLoop_eq_none,
      nextFrom_eq_none]
  refine ⟨?_, hnone, ?_⟩
  · cases hc : (Close c).1 with
    | none =>
      rw [hnone.1 hc]
      rfl
    | some err =>
      cases hn : (next c).1 with
      | none =>
        rw [hnone.2 hn] at hc
        cases hc
      | some p => rfl
  · intro i e h
    rcases next_split c i e h with ⟨pre, post, hes, hpre, he, rfl⟩
    rw [(take_succ_split c.expectations pre post e hes).1]
    simp only [Close, hes]
    rw [closeLoop_first_unfulfilled pre post e [] hpre he]
    simp

theorem close_agrees_with_next_witness :
    (next twoDone).1 = some (2, .exec insertUsers) ∧
    (Close twoDone).1 = some (remainingError
      (String.intercalate "\n" ((twoDone.expectations.take 2).map confirmation))
      (.exec insertUsers)) :=
  ⟨rfl, (close_agrees_with_next twoDone).2.2 2 (.exec insertUsers) rfl⟩

/-- C20: `Close` collects one message per fulfilled expectation before the first
unfulfilled one, as many messages as there are such expectations, the message of a
fulfilled Begin expectation being the empty string; for a list that starts with a
fulfilled Begin expectation followed by an unfulfilled Exec expectation with pattern
`p`, the error text is a newline directly followed by the remaining-expectation message
for `p`, with no confirmation text for the Begin. -/
theorem close_message_per_fulfilled :
    (∀ (c : conn) (i : Nat) (e : expectation), (next c).1 = some (i, e) →
      ((c.expectations.take i).map confirmation).length = i ∧
      (Close c).1 = some (remainingError
        (String.intercalate "\n" ((c.expectations.take i).map confirmation)) e) ∧
      (∀ j etb, j < i → c.expectations[j]? = some (.begin etb) →
        ((c.expectations.take i).map confirmation)[j]? = some "")) ∧
    (∀ (etb : expectedBegin) (ev : expectedExec) (rest : List expectation)
      (active : Option Nat), (expectation.begin etb).fulfilled = true →
      (expectation.exec ev).fulfilled = false →
      (Close ⟨.begin etb :: .exec ev :: rest, active⟩).1.map Error.text = some
        ("\n" ++ ("there is a remaining expectation *sqlmock.expectedExec, \""
          ++ ev.sqlRegex ++ "\" which was not matched yet"))) := by
  constructor
  · intro c i e h
    have hlt := next_index_lt c i e h
    rcases next_split c i e h with ⟨pre, post, hes, hpre, he, rfl⟩
    refine ⟨by simp; omega, ?_, ?_⟩
    · rw [(take_succ_split c.expectations pre post e hes).1]
      simp only [Close, hes]
      rw [closeLoop_first_unfulfilled pre post e [] hpre he]
      simp
    · intro j etb hj hget
      rw [List.getElem?_map, List.getElem?_take_of_lt hj, hget]
      rfl
  · intro etb ev rest active hb he
    simp only [Close, closeLoop, hb, he,
      if_true, Bool.false_eq_true, if_false, List.nil_append, confirmation,
      remainingError, expectation.typeName, Option.map_some', Error.text,
      String.append_assoc]
    rfl

theorem close_message_per_fulfilled_witness :
    (next beginDone).1 = some (1, .exec insertUsers) ∧
    (Close beginDone).1.map Error.text = some
      ("\nthere is a remaining expectation *sqlmock.expectedExec, \"INSERT INTO users\""
        ++ " which was not matched yet") :=
  ⟨rfl, (close_message_per_fulfilled.2 { beginPlain with triggered := true } insertUsers
    [] (some 1) rfl rfl).trans (by decide)⟩

/-! ## What an operation may change -/

theorem perform_step (K : Collaborators) (c : conn) (o : Operation) :
    perform K c o = c ∨
      ∃ i e, (next c).1 = some (i, e) ∧
        perform K c o = ⟨c.expectations.set i e.trigger, c.active⟩ := by
  cases o with
  | prepare query => exact Or.inl rfl
  | call k =>
    cases h : (next c).1 with
    | none =>
      left
      cases k <;> simp [perform, call, Begin, Exec, Query, h, next_state]
    | some p =>
      obtain ⟨i, e⟩ := p
      cases k with
      | begin =>
        cases e with
        | begin etb => exact Or.inr ⟨i, _, rfl, Begin_state K c i etb h⟩
        | exec eq => exact Or.inl (by simp [perform, call, Begin, h, next_state])
        | query eq => exact Or.inl (by simp [perform, call, Begin, h, next_state])
      | exec q a =>
        cases e with
        | begin etb => exact Or.inl (by simp [perform, call, Exec, h, next_state])
        | exec eq => exact Or.inr ⟨i, _, rfl, Exec_state K c i eq q a h⟩
        | query eq => exact Or.inl (by simp [perform, call, Exec, h, next_state])
      | query q a =>
        cases e with
        | begin etb => exact Or.inl (by simp [perform, call, Query, h, next_state])
        | exec eq => exact Or.inl (by simp [perform, call, Query, h, next_state])
        | query eq => exact Or.inr ⟨i, _, rfl, Query_state K c i eq q a h⟩

theorem trigger_declared (e : expectation) : e.trigger.declared = e.declared := by
  cases e <;> rfl

/-- C16: a call to `Begin`, `Exec`, `Query` or `Prepare` leaves the expectation list with
the same length and, entry by entry in the same order, with the same expectation up to
the `triggered` field (same variant, regex, expected arguments, canned payload, canned
error); an entry that differs from the one before the call is the one `next` returned
before the call, and it is that expectation with its `triggered` field set. -/
theorem expectations_immutable (K : Collaborators) (c : conn) (o : Operation) :
    (perform K c o).expectations.length = c.expectations.length ∧
    (perform K c o).expectations.map expectation.declared
      = c.expectations.map expectation.declared ∧
    (perform K c o).expectations.map expectation.kind
      = c.expectations.map expectation.kind ∧
    (∀ j, (perform K c o).expectations[j]? ≠ c.expectations[j]? →
      ∃ e, (next c).1 = some (j, e) ∧
        (perform K c o).expectations[j]? = some e.trigger) := by
  rcases perform_step K c o with h | ⟨i, e, hn, h⟩
  · rw [h]
    exact ⟨rfl, rfl, rfl, fun j hj => absurd rfl hj⟩
  · rw [h]
    have hlt := next_index_lt c i e hn
    rcases next_split c i e hn with ⟨pre, post, hes, _, _, rfl⟩
    refine ⟨by simp, ?_, ?_, ?_⟩
    · simp only [hes, set_length_append, List.map_append, List.map_cons, trigger_declared]
    · simp only [hes, set_length_append, List.map_append, List.map_cons]
      cases e <;> rfl
    · intro j hj
      by_cases hji : pre.length = j
      · subst hji
        refine ⟨e, hn, ?_⟩
        simp [hlt]
      · exact absurd (by simp [List.getElem?_set_ne hji]) hj

theorem expectations_immutable_witness :
    (perform literal oneQuery (.call (.query "DELETE FROM t" []))).expectations.length
      = oneQuery.expectations.length ∧
    (perform literal oneQuery (.call (.query "DELETE FROM t" []))).expectations.map
        expectation.declared
      = oneQuery.expectations.map expectation.declared ∧
    (perform literal oneQuery (.call (.query "DELETE FROM t" []))).expectations
      = [(expectation.query selectAny).trigger] :=
  have h := expectations_immutable literal oneQuery (.call (.query "DELETE FROM t" []))
  ⟨h.1, h.2.1, by decide⟩

/-! ## No backward movement -/

theorem trigger_triggered (e : expectation) : e.trigger.triggered = true := by
  cases e <;> rfl

theorem nextIndex_eq_some (c : conn) (i : Nat) :
    nextIndex c = some i ↔ ∃ e, (next c).1 = some (i, e) := by
  unfold nextIndex
  cases h : (next c).1 with
  | none => simp
  | some p =>
    obtain ⟨k, e⟩ := p
    simp

theorem step_forward (K : Collaborators) (c : conn) (o : Operation) :
    (∀ (j : Nat) (e : expectation), c.expectations[j]? = some e → e.triggered = true →
      ∃ e2, (perform K c o).expectations[j]? = some e2 ∧ e2.triggered = true) ∧
    (∀ i j, nextIndex c = some i → nextIndex (perform K c o) = some j → i ≤ j) ∧
    (nextIndex c = none → nextIndex (perform K c o) = none) := by
  rcases perform_step K c o with h | ⟨i, e, hn, h⟩
  · rw [h]
    refine ⟨fun j e he ht => ⟨e, he, ht⟩, ?_, fun hnone => hnone⟩
    intro i j hi hj
    rw [hi] at hj
    cases hj
    exact Nat.le_refl _
  · have hlt := next_index_lt c i e hn
    have haft := after_trigger c i e hn (perform K c o) (by rw [h])
    refine ⟨?_, ?_, ?_⟩
    · intro j x hx ht
      rw [h]
      by_cases hji : i = j
      · subst hji
        exact ⟨e.trigger, by simp [hlt], trigger_triggered e⟩
      · exact ⟨x, by simp [List.getElem?_set_ne hji, hx], ht⟩
    · intro i0 j hi hj
      rcases (nextIndex_eq_some c i0).1 hi with ⟨e0, he0⟩
      rw [hn] at he0
      cases he0
      rcases (nextIndex_eq_some _ j).1 hj with ⟨e1, he1⟩
      exact Nat.le_of_lt (haft.2.2.1 j e1 he1)
    · intro hnone
      have : nextIndex c = some i := (nextIndex_eq_some c i).2 ⟨e, hn⟩
      rw [hnone] at this
      cases this

/-- C17: along every sequence of `Begin`, `Exec`, `Query` and `Prepare` calls, an entry
whose flag is true (`triggered`, which `fulfilled()` reads) still has it true at the
end, and the index of the expectation `next` returns does not decrease: if `next`
returns the entry at index `i` before and the entry at index `j` after, then `i ≤ j`,
and once `next` returns nil it returns nil ever after. -/
theorem no_backward_movement (K : Collaborators) (c : conn) (os : List Operation) :
    (∀ (j : Nat) (e : expectation), c.expectations[j]? = some e → e.triggered = true →
      ∃ e2, (performAll K c os).expectations[j]? = some e2 ∧ e2.triggered = true ∧
        e2.fulfilled = true) ∧
    (∀ i j, nextIndex c = some i → nextIndex (performAll K c os) = some j → i ≤ j) ∧
    (nextIndex c = none → nextIndex (performAll K c os) = none) := by
  induction os generalizing c with
  | nil =>
    refine ⟨fun j e he ht => ⟨e, he, ht, ht⟩, ?_, fun hnone => hnone⟩
    intro i j hi hj
    rw [show performAll K c [] = c from rfl, hi] at hj
    cases hj
    exact Nat.le_refl _
  | cons o os ih =>
    have hs := step_forward K c o
    have hr := ih (perform K c o)
    refine ⟨?_, ?_, ?_⟩
    · intro j e he ht
      rcases hs.1 j e he ht with ⟨e1, he1, ht1⟩
      exact hr.1 j e1 he1 ht1
    · intro i j hi hj
      cases hmid : nextIndex (perform K c o) with
      | none =>
        have := hr.2.2 hmid
        rw [show performAll K c (o :: os) = performAll K (perform K c o) os from rfl,
          this] at hj
        cases hj
      | some k =>
        exact Nat.le_trans (hs.2.1 i k hi hmid) (hr.2.1 k j hmid hj)
    · intro hnone
      exact hr.2.2 (hs.2.2 hnone)

theorem no_backward_movement_witness :
    nextIndex beginExecQuery = some 0 ∧
    nextIndex (performAll literal beginExecQuery mixedOperations) = none ∧
    nextIndex (performAll literal beginExecQuery (mixedOperations.take 3)) = some 2 ∧
    (∀ i j, nextIndex beginExecQuery = some i →
      nextIndex (performAll literal beginExecQuery (mixedOperations.take 3)) = some j →
      i ≤ j) :=
  ⟨by decide, by decide, by decide,
    (no_backward_movement literal beginExecQuery (mixedOperations.take 3)).2.1⟩

/-! ## The same call twice in a row -/

theorem drop_of_getElem? (es : List expectation) (n : Nat) (x : expectation)
    (h : es[n]? = some x) : es.drop n = x :: es.drop (n + 1) := by
  induction es generalizing n with
  | nil => simp at h
  | cons y es ih =>
    cases n with
    | zero =>
      simp at h
      simp [h]
    | succ n =>
      simp at h
      simpa using ih n h

theorem call_sequence_error (K : Collaborators) (c : conn) (k : Call)
    (h : (next c).1 = none) :
    (∃ m, (call K c k).1.err = some (.sequence m)) ∧
      (call K c k).1.payloadIsNil = true ∧ (call K c k).2 = c := by
  cases k <;> simp [call, Begin, Exec, Query, h, next_state, Reply.err, Reply.payloadIsNil]

theorem call_type_mismatch (K : Collaborators) (c : conn) (k : Call) (j : Nat)
    (B : expectation) (h : (next c).1 = some (j, B)) (hk : B.kind ≠ k.kind) :
    (∃ m, (call K c k).1.err = some (.typeMismatch m)) ∧
      (call K c k).1.payloadIsNil = true ∧ (call K c k).2 = c := by
  cases k <;> cases B <;>
    first
    | exact absurd rfl hk
    | simp [call, Begin, Exec, Query, h, next_state, Reply.err, Reply.payloadIsNil]

theorem in_order_step (K : Collaborators) (c : conn) (o : Operation)
    (hinv : ∀ (a b : Nat) (x y : expectation), a < b → c.expectations[a]? = some x →
      c.expectations[b]? = some y → x.fulfilled = false → y.fulfilled = false) :
    ∀ (a b : Nat) (x y : expectation), a < b →
      (perform K c o).expectations[a]? = some x →
      (perform K c o).expectations[b]? = some y → x.fulfilled = false →
      y.fulfilled = false := by
  rcases perform_step K c o with h | ⟨i, e, hn, h⟩
  · rw [h]
    exact hinv
  · rw [h]
    have hlt := next_index_lt c i e hn
    have hfirst := (nextFrom_zero_iff c.expectations i e).1 hn
    intro a b x y hab hx hy hxf
    have hai : i ≠ a := by
      intro hia
      subst hia
      simp [hlt] at hx
      rw [← hx, trigger_fulfilled] at hxf
      cases hxf
    have hx2 : c.expectations[a]? = some x := by
      simpa [List.getElem?_set_ne hai] using hx
    have hbi : i ≠ b := by
      intro hib
      subst hib
      have := hfirst.2.2 a hab x hx2
      rw [hxf] at this
      cases this
    have hy2 : c.expectations[b]? = some y := by
      simpa [List.getElem?_set_ne hbi] using hy
    exact hinv a b x y hab hx2 hy2 hxf

theorem in_order_reached (K : Collaborators) (c0 : conn) (os : List Operation)
    (hfresh : ∀ x ∈ c0.expectations, x.fulfilled = false) :
    ∀ (a b : Nat) (x y : expectation), a < b →
      (performAll K c0 os).expectations[a]? = some x →
      (performAll K c0 os).expectations[b]? = some y → x.fulfilled = false →
      y.fulfilled = false := by
  have hgen : ∀ (os : List Operation) (c : conn),
      (∀ (a b : Nat) (x y : expectation), a < b → c.expectations[a]? = some x →
        c.expectations[b]? = some y → x.fulfilled = false → y.fulfilled = false) →
      ∀ (a b : Nat) (x y : expectation), a < b →
        (performAll K c os).expectations[a]? = some x →
        (performAll K c os).expectations[b]? = some y → x.fulfilled = false →
        y.fulfilled = false := by
    intro os
    induction os with
    | nil =>
      intro c hinv
      exact hinv
    | cons o os ih =>
      intro c hinv
      exact ih (perform K c o) (in_order_step K c o hinv)
  apply hgen os c0
  intro a b x y _ _ hy _
  exact hfresh y (List.getElem?_mem hy)

/-- C11: on a connection driven from a declared list by any operations, when the first
unfulfilled entry is an expectation the call matches, the call succeeds with the canned
payload and the same call made again returns a nil payload and a non-nil error: the
error for no expectation left when no unfulfilled entry is behind the consumed one (in
particular when it was the last entry), the error for an unexpected call when the entry
that follows is of another kind; the second call looks at an entry behind the consumed
one, never at the consumed one. -/
theorem repeated_call_fails (K : Collaborators) (c0 : conn) (os : List Operation)
    (i : Nat) (e : expectation) (k : Call)
    (hfresh : ∀ x ∈ c0.expectations, x.fulfilled = false)
    (h : (next (performAll K c0 os)).1 = some (i, e)) (ha : answers K e k = true) :
    (call K (performAll K c0 os) k).1 = cannedReply e ∧ (cannedReply e).err = none ∧
    (∀ j x, (next (call K (performAll K c0 os) k).2).1 = some (j, x) → i < j) ∧
    ((∀ x ∈ (performAll K c0 os).expectations.drop (i + 1), x.fulfilled = true) →
      (∃ m, (call K (call K (performAll K c0 os) k).2 k).1.err = some (.sequence m)) ∧
        (call K (call K (performAll K c0 os) k).2 k).1.payloadIsNil = true) ∧
    ((performAll K c0 os).expectations[i + 1]? = none →
      (∃ m, (call K (call K (performAll K c0 os) k).2 k).1.err = some (.sequence m)) ∧
        (call K (call K (performAll K c0 os) k).2 k).1.payloadIsNil = true) ∧
    (∀ B, (performAll K c0 os).expectations[i + 1]? = some B → B.kind ≠ k.kind →
      (∃ m, (call K (call K (performAll K c0 os) k).2 k).1.err = some (.typeMismatch m)) ∧
        (call K (call K (performAll K c0 os) k).2 k).1.payloadIsNil = true) := by
  have hinv := in_order_reached K c0 os hfresh
  generalize performAll K c0 os = c at h hinv ⊢
  have hcall := call_matching K c i e k h ha
  have hfirst := (nextFrom_zero_iff c.expectations i e).1 h
  have haft := after_trigger c i e h (call K c k).2 (by rw [hcall])
  have hseq : (∀ x ∈ c.expectations.drop (i + 1), x.fulfilled = true) →
      (∃ m, (call K (call K c k).2 k).1.err = some (.sequence m)) ∧
        (call K (call K c k).2 k).1.payloadIsNil = true := by
    intro hall
    have hnone : (next (call K c k).2).1 = none := by
      rw [haft.2.1]
      exact (nextFrom_eq_none _ _).2 hall
    have := call_sequence_error K (call K c k).2 k hnone
    exact ⟨this.1, this.2.1⟩
  refine ⟨by rw [hcall], ?_, haft.2.2.1, hseq, ?_, ?_⟩
  · cases e <;> rfl
  · intro hnone
    apply hseq
    rw [List.drop_eq_nil_of_le (List.getElem?_eq_none_iff.1 hnone)]
    simp
  · intro B hB hk
    have hBf : B.fulfilled = false :=
      hinv i (i + 1) e B (Nat.lt_succ_self i) hfirst.1 hB hfirst.2.1
    have hnext : (next (call K c k).2).1 = some (i + 1, B) := by
      rw [haft.2.1, drop_of_getElem? c.expectations (i + 1) B hB]
      simp [nextFrom, hBf]
    have := call_type_mismatch K (call K c k).2 k (i + 1) B hnext hk
    exact ⟨this.1, this.2.1⟩

theorem repeated_call_fails_witness :
    (∀ x ∈ beginExecQuery.expectations, x.fulfilled = false) ∧
    (next (performAll literal beginExecQuery [.prepare "SELECT 1", .call .begin])).1
      = some (1, .exec insertUsers) ∧
    answers literal (.exec insertUsers) (.exec "INSERT INTO users" [.int 1, .str "a"])
      = true ∧
    (call literal (performAll literal beginExecQuery [.prepare "SELECT 1", .call .begin])
      (.exec "INSERT INTO users" [.int 1, .str "a"])).1
      = cannedReply (.exec insertUsers) ∧
    ((∃ m, (call literal
        (call literal (performAll literal beginExecQuery [.prepare "SELECT 1", .call .begin])
          (.exec "INSERT INTO users" [.int 1, .str "a"])).2
        (.exec "INSERT INTO users" [.int 1, .str "a"])).1.err = some (.typeMismatch m)) ∧
      (call literal
        (call literal (performAll literal beginExecQuery [.prepare "SELECT 1", .call .begin])
          (.exec "INSERT INTO users" [.int 1, .str "a"])).2
        (.exec "INSERT INTO users" [.int 1, .str "a"])).1.payloadIsNil = true) :=
  have h := repeated_call_fails literal beginExecQuery [.prepare "SELECT 1", .call .begin] 1
    (.exec insertUsers) (.exec "INSERT INTO users" [.int 1, .str "a"]) (by decide)
    (by decide) (by decide)
  ⟨by decide, by decide, by decide, h.1,
    h.2.2.2.2.2 (.query selectAny) (by decide) (by decide)⟩

/-! ## Query as the mirror of Exec -/

theorem swapKinds_fulfilled (toRows : Result → Rows) (toResult : Rows → Result)
    (e : expectation) : (swapKinds toRows toResult e).fulfilled = e.fulfilled := by
  cases e <;> rfl

theorem nextFrom_swap (toRows : Result → Rows) (toResult : Rows → Result)
    (es : List expectation) (k : Nat) :
    nextFrom (es.map (swapKinds toRows toResult)) k
      = (nextFrom es k).map (fun p => (p.1, swapKinds toRows toResult p.2)) := by
  induction es generalizing k with
  | nil => rfl
  | cons e es ih =>
    cases h : e.fulfilled <;>
      simp [nextFrom, swapKinds_fulfilled, h, ih]

theorem next_swap (toRows : Result → Rows) (toResult : Rows → Result) (c : conn) :
    (next (swapConn toRows toResult c)).1
      = (next c).1.map (fun p => (p.1, swapKinds toRows toResult p.2)) :=
  nextFrom_swap toRows toResult c.expectations 0

/-- C13: under the map that swaps Exec expectations with Query expectations (canned
result for canned rows, all other fields kept), `Query` on a connection and `Exec` on
the swapped connection end in the same outcome class, return corresponding payloads
and leave corresponding states, for every connection state, query and argument list;
and likewise `Exec` on a connection and `Query` on the swapped connection. -/
theorem query_mirrors_exec (K : Collaborators) (toRows : Result → Rows)
    (toResult : Rows → Result) (c : conn) (query : String) (args : List Value) :
    (outcome (Query K c query args).1.2
        = outcome (Exec K (swapConn toRows toResult c) query args).1.2 ∧
      (Query K c query args).1.1.map toResult
        = (Exec K (swapConn toRows toResult c) query args).1.1 ∧
      swapConn toRows toResult (Query K c query args).2
        = (Exec K (swapConn toRows toResult c) query args).2) ∧
    (outcome (Exec K c query args).1.2
        = outcome (Query K (swapConn toRows toResult c) query args).1.2 ∧
      (Exec K c query args).1.1.map toRows
        = (Query K (swapConn toRows toResult c) query args).1.1 ∧
      swapConn toRows toResult (Exec K c query args).2
        = (Query K (swapConn toRows toResult c) query args).2) := by
  have hn := next_swap toRows toResult c
  cases hc : (next c).1 with
  | none =>
    rw [hc] at hn
    simp [Query, Exec, hc, hn, next_state, outcome]
  | some p =>
    obtain ⟨i, e⟩ := p
    rw [hc] at hn
    cases e with
    | begin etb =>
      simp [Query, Exec, hc, hn, next_state, outcome, swapKinds]
    | exec eq =>
      obtain ⟨t, err, re, ar, res⟩ := eq
      simp only [Option.map_some', swapKinds] at hn
      constructor
      · simp [Query, Exec, hc, hn, next_state, outcome]
      · simp only [Query, Exec, hc, hn, next_state]
        cases err <;> cases res <;> cases K.queryMatches re (K.stripQuery query) <;>
          cases K.argsMatches ar args <;> simp [swapConn, swapKinds, outcome]
    | query eq =>
      obtain ⟨t, err, re, ar, res⟩ := eq
      simp only [Option.map_some', swapKinds] at hn
      constructor
      · simp only [Query, Exec, hc, hn, next_state]
        cases err <;> cases res <;> cases K.queryMatches re (K.stripQuery query) <;>
          cases K.argsMatches ar args <;> simp [swapConn, swapKinds, outcome]
      · simp [Query, Exec, hc, hn, next_state, outcome]

theorem query_mirrors_exec_witness :
    outcome (Query literal oneQuery "DELETE FROM t" []).1.2 = .patternMismatch ∧
    outcome (Exec literal (swapConn resultAsRows rowsAsResult oneQuery) "DELETE FROM t"
      []).1.2 = .patternMismatch ∧
    (Query literal oneQuery "SELECT 1" []).1.1.map rowsAsResult
      = (Exec literal (swapConn resultAsRows rowsAsResult oneQuery) "SELECT 1" []).1.1 ∧
    swapConn resultAsRows rowsAsResult (Query literal oneQuery "SELECT 1" []).2
      = (Exec literal (swapConn resultAsRows rowsAsResult oneQuery) "SELECT 1" []).2 :=
  ⟨by decide, by decide,
    (query_mirrors_exec literal resultAsRows rowsAsResult oneQuery "SELECT 1" []).1.2.1,
    (query_mirrors_exec literal resultAsRows rowsAsResult oneQuery "SELECT 1" []).1.2.2⟩

end sqlmock
